import Mathlib

/-!
# Verification of the FuseCore mod discovery and hot-reload loader

A shallow embedding of `ba_data/python/fusecore/_modloader.py` (and the
`parse_dict` helper from `fusecore/utils.py`), together with theorems
settling the specification claims about the loader.

Modelling conventions:
* Paths are plain strings; `get_abspath rel main` is modelled as
  `main ++ "/" ++ rel` (the source joins and absolutises the two parts).
* Filesystem queries (`exists`, `is_dir`, `is_file`, `os.listdir`,
  `stat().st_mtime_ns`) are inputs of the model: either an explicit file
  tree (`FsNode`) or oracle functions in an environment record.
* Side effects the loader performs (asset migration calls, `sys.path`
  appends, dynamic imports/reloads, the "mod loaded" announcement) are
  recorded as an explicit event list.
* A Python exception escaping a function is an `Except.error` outcome;
  state mutated before the raise is still carried in the result, matching
  mutation-in-place semantics.
-/

namespace FuseCore

/-! ## Path helpers (Python `pathlib.Path` fields used by the loader) -/

/-- Split a character list at every occurrence of the separator
(`str.split(sep)` semantics: an empty input gives one empty group). -/
def splitChars (sep : Char) : List Char → List (List Char)
  | [] => [[]]
  | c :: cs =>
    let r := splitChars sep cs
    if c = sep then [] :: r
    else
      match r with
      | [] => [[c]]
      | g :: gs => (c :: g) :: gs

/-- The components of a path string, split at `'/'`. -/
def pathParts (p : String) : List String :=
  (splitChars '/' p.data).map String.mk

/-- `Path.name`: the final path component. -/
def pathName (p : String) : String :=
  (pathParts p).getLastD ""

/-- `Path.suffix` of a file name: the extension from the last dot,
including the dot, and empty when the name has no dot or starts with its
only dot (Python keeps the suffix empty unless the last dot has index
greater than zero in the name). -/
def nameSuffix (n : String) : String :=
  let parts := (splitChars '.' n.data).map String.mk
  if parts.length ≥ 2 ∧ String.intercalate "." parts.dropLast ≠ "" then
    "." ++ parts.getLastD ""
  else ""

/-- `Path.suffix`: extension of the final component. -/
def pathSuffix (p : String) : String :=
  nameSuffix (pathName p)

/-- `Path.parent` (as used on the constructed main-script path). -/
def pathParent (p : String) : String :=
  String.intercalate "/" (pathParts p).dropLast

/-- `get_abspath(rel, main)`: join `main` with the relative part. -/
def get_abspath (rel main : String) : String :=
  main ++ "/" ++ rel

/-! ## Data model: mod types, statuses, manifests, entries -/

/-- `ModType`: a mod's type (`NONE`/`PLUGIN`/`DIRECTORY`/`PACKED`/`COMPRESSED`). -/
inductive ModType where
  | NONE
  | PLUGIN
  | DIRECTORY
  | PACKED
  | COMPRESSED
  deriving DecidableEq, Repr

/-- `_ModStatus`: lifecycle status of a mod entry. -/
inductive ModStatus where
  | NEW
  | ACTIVE
  | OFFLINE
  deriving DecidableEq, Repr

/-- `ModManifest` dataclass with its field defaults. `assets` is optional
here because `parse_dict` can overwrite the default dict with a JSON
`null`, which `_load_as_directory` checks for (`if asset_paths is None`). -/
structure ModManifest where
  id : String := ""
  name : String := "Ballistica Mod"
  authors : List String := []
  version : String := "1.0"
  fusecore : String := "1.0"
  assets : Option (List (String × String)) := some []
  deriving DecidableEq, Repr

/-- `ModEntry` dataclass (the `PackageRecord` of the spec). -/
structure ModEntry where
  id : String
  path : String
  type : ModType
  manifest : Option ModManifest
  status : ModStatus := ModStatus.NEW
  lastTime : Int := -9999
  deriving DecidableEq, Repr

/-- `ModEntry._is_mutable`: only directory mods are mutable. -/
def isMutable (e : ModEntry) : Bool :=
  e.type = ModType.DIRECTORY

/-- `ModEntry._pop_new_status`: report whether the status is `NEW` and, if
so, immediately switch it to `ACTIVE`. Returns the report together with
the updated entry (the source mutates `self`). -/
def popNewStatus (e : ModEntry) : Bool × ModEntry :=
  let out := e.status = ModStatus.NEW
  if out then (true, { e with status := ModStatus.ACTIVE }) else (false, e)

/-! ## Change detection (`ModEntry._get_latest_time`) -/

/-- The filesystem state of one mod root, as far as change detection
reads it: whether the root exists, whether it is a directory, the
`st_mtime_ns` values of all files under it that `stat` successfully
(files whose `stat` raises `OSError` are skipped by the source and are
therefore not listed), and the root's own mtime when it is a file. -/
structure RootFS where
  pathExists : Bool
  isDir : Bool
  fileTimes : List Int
  selfTime : Int
  deriving DecidableEq, Repr

/-- `ModEntry._get_latest_time`: max mtime over all files under a
directory root (starting from `latest = 0`), or the root's own mtime for
a single file. -/
def getLatestTime (fs : RootFS) : Int :=
  if fs.isDir then fs.fileTimes.foldl max 0 else fs.selfTime

/-! ## Author summary (`ModEntry._get_authors_string_from_manifest`) -/

/-- The author-joining loop: the last author gets no separator, the
second-to-last is followed by `" & "`, every earlier author by `", "`.
This is the source's `enumerate` loop written as structural recursion
(the separator chosen for an author depends only on its distance from
the end of the list). -/
def authorsJoin : List String → String
  | [] => ""
  | [a] => a
  | [a, b] => a ++ " & " ++ b
  | a :: b :: c :: rest => a ++ ", " ++ authorsJoin (b :: c :: rest)

/-- `ModEntry._get_authors_string_from_manifest`, on the manifest's
author list: `"no author"` for an empty list, the sole author for a
singleton, otherwise the joined string. -/
def getAuthorsString (authors : List String) : String :=
  if authors.length < 1 then "no author"
  else if authors.length < 2 then authors.getD 0 ""
  else authorsJoin authors

/-! ## Load-time effects and environment -/

/-- Side effects performed while loading a mod, in order: an asset
migration call (`migrate_files`), a `sys.path` append, a dynamic
module import or reload, and the loaded-mod announcement. -/
inductive LoadEvent where
  | migrate (src dst hashname : String) (exts : List String)
  | addSysPath (p : String)
  | importMod (m : String)
  | reloadMod (m : String)
  | announce (modname authors : String)
  deriving DecidableEq, Repr

/-- Python exceptions the load path can raise: the `assert self.manifest`
failure, an I/O error inside `migrate_files`, and an exception raised by
the dynamic import/reload of the mod's main module. -/
inductive PyExn where
  | assertionError
  | migrateError (src : String)
  | importError (m : String)
  deriving DecidableEq, Repr

/-- The ambient state `_load_as_directory` consults: filesystem
existence/kind oracles, server/platform flags, `sys.path`, `sys.modules`,
and oracles saying which migration calls and dynamic loads raise. -/
structure LoadEnv where
  dataDirectory : String
  pathExists : String → Bool
  isFile : String → Bool
  isServer : Bool
  classicPlatform : Option String
  sysPath : List String
  sysModulesHas : String → Bool
  migrateFails : String → Bool
  dynFails : String → Bool

/-- `CORE_DIR_NAME` from `fusecore/common.py`. -/
def CORE_DIR_NAME : String := "fusecore"

/-- `get_mods_resource_dir`: the host's content dir for one resource kind. -/
def getModsResourceDir (env : LoadEnv) (resource : String) : String :=
  env.dataDirectory ++ "/ba_data/" ++ resource ++ "2/" ++ CORE_DIR_NAME ++ "/mods/ext"

/-- The texture extension allow-list chosen by platform: desktop
platforms take `.dds`, mobile ones `.ktx`, and both when `classic` is
unavailable or the platform matches no case. -/
def imgExtFor (env : LoadEnv) : List String :=
  match env.classicPlatform with
  | none => [".dds", ".ktx"]
  | some p =>
    if p = "windows" ∨ p = "linux" ∨ p = "mac" then [".dds"]
    else if p = "android" ∨ p = "ios" then [".ktx"]
    else [".dds", ".ktx"]

/-- One guarded `migrate_files` call: skipped when the source dir did not
resolve, otherwise either an I/O failure (exception) or a migration
event. -/
def migrateCall (env : LoadEnv) (src : Option String) (dst hashname : String)
    (exts : List String) : List LoadEvent × Option PyExn :=
  match src with
  | none => ([], none)
  | some s =>
    if env.migrateFails s then ([], some (PyExn.migrateError s))
    else ([LoadEvent.migrate s dst hashname exts], none)

/-- The migration block of `_load_as_directory`: textures and audio only
on non-server profiles (textures with the platform extension list), then
meshes; a raised migration aborts the rest of the block. -/
def migrationPhase (env : LoadEnv) (e : ModEntry)
    (pathTex pathAudio pathMesh : Option String) : List LoadEvent × Option PyExn :=
  let clientPart : List LoadEvent × Option PyExn :=
    if env.isServer then ([], none)
    else
      let tex := migrateCall env pathTex (getModsResourceDir env "textures") e.id (imgExtFor env)
      match tex.2 with
      | some ex => (tex.1, some ex)
      | none =>
        let au := migrateCall env pathAudio (getModsResourceDir env "audio") e.id [".ogg"]
        (tex.1 ++ au.1, au.2)
  match clientPart.2 with
  | some ex => (clientPart.1, some ex)
  | none =>
    let mesh := migrateCall env pathMesh (getModsResourceDir env "meshes") e.id [".bob", ".cob"]
    (clientPart.1 ++ mesh.1, mesh.2)

/-- `dict.get` on the manifest's asset map. -/
def lookupAsset (assets : List (String × String)) (k : String) : Option String :=
  (assets.find? (fun kv => kv.1 == k)).map (fun kv => kv.2)

/-- Result of a load-path call: the (possibly mutated) entry, the events
performed before returning or raising, and either the returned boolean or
the exception that escaped. -/
structure LoadResult where
  entry : ModEntry
  events : List LoadEvent
  outcome : Except PyExn Bool
  deriving Repr

/-- `ModEntry._load_as_directory`. Asserts the manifest, pops the NEW
status (promoting to ACTIVE) *before* anything can fail, resolves the
asset paths, migrates assets, then requires a resolvable `.py` main entry
and dynamically imports (first load) or reloads it. Returns `is_new`. -/
def loadAsDirectory (e0 : ModEntry) (env : LoadEnv) : LoadResult :=
  match e0.manifest with
  | none => ⟨e0, [], Except.error PyExn.assertionError⟩
  | some m =>
    let pop := popNewStatus e0
    let isNew := pop.1
    let e := pop.2
    match m.assets with
    | none => ⟨e, [], Except.ok false⟩
    | some assets =>
      let safePath : Option String → Option String := fun d =>
        d.bind fun dd =>
          let dst := get_abspath dd e.path
          if env.pathExists dst then some dst else none
      let pathMain := safePath (lookupAsset assets "main")
      let pathTex := safePath (lookupAsset assets "textures")
      let pathAudio := safePath (lookupAsset assets "audio")
      let pathMesh := safePath (lookupAsset assets "meshes")
      let mg := migrationPhase env e pathTex pathAudio pathMesh
      match mg.2 with
      | some ex => ⟨e, mg.1, Except.error ex⟩
      | none =>
        match pathMain with
        | none => ⟨e, mg.1, Except.ok false⟩
        | some pm =>
          if env.isFile pm = false ∨ pathSuffix pm ≠ ".py" then ⟨e, mg.1, Except.ok false⟩
          else
            let evs :=
              if isNew = true ∧ pathParent pm ∉ env.sysPath then
                mg.1 ++ [LoadEvent.addSysPath (pathParent pm)]
              else mg.1
            let moduleImport :=
              pathName e0.path ++ "." ++ (pathName pm).dropRight (pathSuffix pm).length
            if env.sysModulesHas moduleImport then
              if env.dynFails moduleImport then
                ⟨e, evs, Except.error (PyExn.importError moduleImport)⟩
              else ⟨e, evs ++ [LoadEvent.reloadMod moduleImport], Except.ok isNew⟩
            else
              if env.dynFails moduleImport then
                ⟨e, evs, Except.error (PyExn.importError moduleImport)⟩
              else ⟨e, evs ++ [LoadEvent.importMod moduleImport], Except.ok isNew⟩

/-- The mod name used by `_announce_mod_loaded`. -/
def announceName (e : ModEntry) : String :=
  match e.manifest with
  | none => pathName e.path
  | some m => m.name

/-- The author text used by `_announce_mod_loaded`. -/
def announceAuthors (e : ModEntry) : String :=
  match e.manifest with
  | none => "a creator"
  | some m => getAuthorsString m.authors

/-- The tail of `ModEntry.load` once the three guards have passed and the
new timestamp has been recorded: dispatch per kind (only `DIRECTORY` has
a case) and announce when the dispatch returned true. -/
def loadDispatch (e1 : ModEntry) (env : LoadEnv) : LoadResult :=
  let r : LoadResult :=
    match e1.type with
    | ModType.DIRECTORY => loadAsDirectory e1 env
    | _ => ⟨e1, [], Except.ok false⟩
  match r.outcome with
  | Except.ok true =>
    { r with events :=
        r.events ++ [LoadEvent.announce (announceName r.entry) (announceAuthors r.entry)] }
  | _ => r

/-- `ModEntry.load`: skip when the root vanished, when an immutable mod is
already active, or when no file changed; otherwise record the new
timestamp (before anything can fail) and dispatch. -/
def load (e : ModEntry) (env : LoadEnv) (fs : RootFS) : LoadResult :=
  if fs.pathExists = false then ⟨e, [], Except.ok false⟩
  else if isMutable e = false ∧ e.status = ModStatus.ACTIVE then ⟨e, [], Except.ok false⟩
  else if getLatestTime fs = e.lastTime then ⟨e, [], Except.ok false⟩
  else loadDispatch { e with lastTime := getLatestTime fs } env

/-- Whether a load call raised (its exception escaped `load`). -/
def LoadResult.failed (r : LoadResult) : Bool :=
  match r.outcome with
  | Except.error _ => true
  | Except.ok _ => false

/-! ## The apply pass (`ModLoaderSubsystem._read_mod_entries`) -/

/-- `ReadExitStatus`. -/
inductive ReadExitStatus where
  | CLEAN
  | ERROR
  deriving DecidableEq, Repr

/-- What one apply pass produces: the updated entries, all events, the
"did any mod load" flag, the exit status, and the sound cue played. -/
structure ReadOutcome where
  entries : List ModEntry
  events : List LoadEvent
  anyLoaded : Bool
  exitStatus : ReadExitStatus
  sound : Option String
  deriving Repr

/-- The loop body of `_read_mod_entries` for one entry: `load` inside a
`try`; an escaped exception is logged and flips the exit status, the pass
continues with the next entry either way. -/
def readStep (acc : List ModEntry × List LoadEvent × Bool × ReadExitStatus)
    (x : ModEntry × LoadEnv × RootFS) :
    List ModEntry × List LoadEvent × Bool × ReadExitStatus :=
  let r := load x.1 x.2.1 x.2.2
  match r.outcome with
  | Except.ok b => (acc.1 ++ [r.entry], acc.2.1 ++ r.events, acc.2.2.1 || b, acc.2.2.2)
  | Except.error _ => (acc.1 ++ [r.entry], acc.2.1 ++ r.events, acc.2.2.1, ReadExitStatus.ERROR)

/-- `ModLoaderSubsystem._read_mod_entries`: run `load` over every known
entry (each paired with the environment and root filesystem it observes),
catching per-entry exceptions, then play the gun-cocking or error cue only
when at least one mod actually loaded. -/
def readModEntries (xs : List (ModEntry × LoadEnv × RootFS)) : ReadOutcome :=
  let fin := xs.foldl readStep ([], [], false, ReadExitStatus.CLEAN)
  { entries := fin.1
    events := fin.2.1
    anyLoaded := fin.2.2.1
    exitStatus := fin.2.2.2
    sound :=
      if fin.2.2.1 then
        some (if fin.2.2.2 = ReadExitStatus.CLEAN then "gunCocking" else "error")
      else none }

/-! ## Registry (`ModLoaderSubsystem._add_mod_entry`) -/

/-- Dictionary lookup in the registry (`self._mod_entries.get`). -/
def lookupEntry (reg : List (String × ModEntry)) (k : String) : Option ModEntry :=
  (reg.find? (fun kv => kv.1 == k)).map (fun kv => kv.2)

/-- The two log messages `_add_mod_entry` can emit for an existing id. -/
inductive AddLog where
  | conflictRejected
  | reAppended
  deriving DecidableEq, Repr

/-- `ModLoaderSubsystem._add_mod_entry`: a colliding id with a different
path is rejected with a warning; the same id with the same path is a
debug-logged no-op; otherwise the entry is inserted. -/
def addModEntry (reg : List (String × ModEntry)) (entry : ModEntry) :
    List (String × ModEntry) × Option AddLog :=
  match lookupEntry reg entry.id with
  | some prev =>
    if prev.path ≠ entry.path then (reg, some AddLog.conflictRejected)
    else (reg, some AddLog.reAppended)
  | none => (reg ++ [(entry.id, entry)], none)

/-! ## Filesystem tree for scanning

A directory entry is either a file — abstracted by the outcome of
opening and parsing it as a manifest (`none` models unparsable contents
or a non-manifest file) — or a directory with named children. -/

/-- A node of the scanned filesystem. -/
inductive FsNode where
  | file (parsed : Option ModManifest)
  | dir (children : List (String × FsNode))
  deriving Repr

/-- `VALID_MANIFESTS`. -/
def VALID_MANIFESTS : List String := ["mod.json"]

/-- Lexicographic comparison of strings by code point, the order Python
uses to compare `str` (and `Path`s inside one directory). -/
def charsLe : List Char → List Char → Bool
  | [], _ => true
  | _ :: _, [] => false
  | a :: as, b :: bs =>
    if a < b then true
    else if b < a then false
    else charsLe as bs

/-- String comparison by code points. -/
def strLe (a b : String) : Prop := charsLe a.data b.data = true

instance : DecidableRel strLe := fun a b =>
  inferInstanceAs (Decidable (charsLe a.data b.data = true))

theorem charsLe_total (a b : List Char) : charsLe a b = true ∨ charsLe b a = true := by
  induction a generalizing b with
  | nil => exact Or.inl rfl
  | cons x xs ih =>
    cases b with
    | nil => exact Or.inr rfl
    | cons y ys =>
      rcases lt_trichotomy x y with h | h | h
      · left
        simp [charsLe, h]
      · subst h
        rcases ih ys with h2 | h2
        · left
          simp [charsLe, h2]
        · right
          simp [charsLe, h2]
      · right
        simp [charsLe, h]

theorem charsLe_trans (a b c : List Char) (hab : charsLe a b = true)
    (hbc : charsLe b c = true) : charsLe a c = true := by
  induction a generalizing b c with
  | nil => rfl
  | cons x xs ih =>
    cases b with
    | nil => simp [charsLe] at hab
    | cons y ys =>
      cases c with
      | nil => simp [charsLe] at hbc
      | cons z zs =>
        simp only [charsLe] at hab hbc ⊢
        rcases lt_trichotomy x y with h1 | h1 | h1
        · rcases lt_trichotomy y z with h2 | h2 | h2
          · simp [lt_trans h1 h2]
          · subst h2
            simp [h1]
          · simp [h2, not_lt_of_gt h2] at hbc
        · subst h1
          rcases lt_trichotomy x z with h2 | h2 | h2
          · simp [h2]
          · subst h2
            simp only [lt_irrefl, if_false] at hab hbc ⊢
            exact ih _ _ hab hbc
          · simp [h2, not_lt_of_gt h2] at hbc
        · simp [h1, not_lt_of_gt h1] at hab

theorem charsLe_antisymm (a b : List Char) (hab : charsLe a b = true)
    (hba : charsLe b a = true) : a = b := by
  induction a generalizing b with
  | nil =>
    cases b with
    | nil => rfl
    | cons y ys => simp [charsLe] at hba
  | cons x xs ih =>
    cases b with
    | nil => simp [charsLe] at hab
    | cons y ys =>
      simp only [charsLe] at hab hba
      rcases lt_trichotomy x y with h1 | h1 | h1
      · simp [h1, not_lt_of_gt h1] at hba
      · subst h1
        simp only [lt_irrefl, if_false] at hab hba
        rw [ih ys hab hba]
      · simp [h1, not_lt_of_gt h1] at hab

/-- Order on directory entries used by Python's `list.sort()` on paths
within one directory: lexicographic on the entry name. -/
def pairLe (a b : String × FsNode) : Prop := strLe a.1 b.1

instance : DecidableRel pairLe := fun a b => inferInstanceAs (Decidable (strLe a.1 b.1))

instance : IsTotal (String × FsNode) pairLe :=
  ⟨fun a b => charsLe_total a.1.data b.1.data⟩

instance : IsTrans (String × FsNode) pairLe :=
  ⟨fun a b c => charsLe_trans a.1.data b.1.data c.1.data⟩

/-- `list.sort()` on same-directory paths. -/
def sortPairs (l : List (String × FsNode)) : List (String × FsNode) :=
  l.insertionSort pairLe

/-- `ModLoaderSubsystem._look_for_dir_manifest`, given the directory's
immediate children: collect children bearing a recognized manifest name,
return `none` if there are none (warning if several), sort and take the
first, and return its parse result — `none` both when the chosen child
is unreadable as a manifest and when it is itself a directory (opening it
raises, which the `except` turns into `none`). -/
def lookForDirManifest (children : List (String × FsNode)) : Option ModManifest :=
  let found := children.filter (fun c => decide (c.1 ∈ VALID_MANIFESTS))
  if found.length < 1 then none
  else
    match (sortPairs found).head? with
    | some (_, FsNode.file parsed) => parsed
    | _ => none

/-- `ModLoaderSubsystem._is_path_valid_for_scan`: filter out caches,
compiled artifacts and executables. -/
def isPathValidForScan (name : String) : Bool :=
  if name ∈ ["__pycache__"] ∨ nameSuffix name ∈ [".pyc", ".exe"] then false else true

/-- `ModLoaderSubsystem._get_valid_scan_list`: the filtered, sorted
children of a directory. -/
def getValidScanList (children : List (String × FsNode)) : List (String × FsNode) :=
  sortPairs (children.filter (fun c => isPathValidForScan c.1))

/-! ## The scan loop (`ModLoaderSubsystem.scan_for_mods`) -/

/-- The mutable scanner state: `self._scan_paths` and
`self._mod_entries`. (`self._last_scan_paths` is only read during a pass,
so it is a parameter of the loop.) -/
structure ScanState where
  scanPaths : List String
  modEntries : List (String × ModEntry)
  deriving Repr

theorem sizeOf_filter_le {α} [SizeOf α] (p : α → Bool) (l : List α) :
    sizeOf (l.filter p) ≤ sizeOf l := by
  induction l with
  | nil => simp
  | cons a l ih =>
    simp only [List.filter]
    cases p a <;> simp only [List.cons.sizeOf_spec] <;> omega

theorem sizeOf_orderedInsert {α} [SizeOf α] (r : α → α → Prop) [DecidableRel r]
    (a : α) (l : List α) :
    sizeOf (List.orderedInsert r a l) = sizeOf (a :: l) := by
  induction l with
  | nil => simp [List.orderedInsert]
  | cons b l ih =>
    simp only [List.orderedInsert]
    split
    · rfl
    · simp only [List.cons.sizeOf_spec] at *
      omega

theorem sizeOf_insertionSort {α} [SizeOf α] (r : α → α → Prop) [DecidableRel r]
    (l : List α) : sizeOf (l.insertionSort r) = sizeOf l := by
  induction l with
  | nil => rfl
  | cons a l ih =>
    simp only [List.insertionSort, sizeOf_orderedInsert, List.cons.sizeOf_spec]
    omega

theorem sizeOf_getValidScanList (children : List (String × FsNode)) :
    sizeOf (getValidScanList children) ≤ sizeOf children := by
  unfold getValidScanList sortPairs
  rw [sizeOf_insertionSort]
  exact sizeOf_filter_le _ _

/-- The candidate loop of `scan_for_mods`, processing the (already
filtered and sorted) candidate paths of the directory `pfx` against the
previously-seen path list `last`. Every candidate is first appended to
the scan-path list, then skipped if previously seen; a directory with a
manifest is registered as a `DIRECTORY` mod without descending; a
directory without one is scanned recursively and then removed again from
the scan-path list; a stray `.py` file is registered as a `PLUGIN`. -/
def scanLoop (last : List String) :
    String → List (String × FsNode) → ScanState → ScanState
  | _, [], st => st
  | pfx, (name, node) :: rest, st =>
    let full := get_abspath name pfx
    let st1 : ScanState := { st with scanPaths := st.scanPaths ++ [full] }
    if full ∈ last then scanLoop last pfx rest st1
    else
      match node with
      | FsNode.dir children =>
        match lookForDirManifest children with
        | some m =>
          scanLoop last pfx rest
            { st1 with modEntries :=
                (addModEntry st1.modEntries
                  { id := m.id, path := full, type := ModType.DIRECTORY,
                    manifest := some m }).1 }
        | none =>
          let st2 := scanLoop last full (getValidScanList children) st1
          let st3 : ScanState := { st2 with scanPaths := st2.scanPaths.erase full }
          scanLoop last pfx rest st3
      | FsNode.file _ =>
        if nameSuffix name = ".py" then
          scanLoop last pfx rest
            { st1 with modEntries :=
                (addModEntry st1.modEntries
                  { id := name, path := full, type := ModType.PLUGIN,
                    manifest := none }).1 }
        else scanLoop last pfx rest st1
termination_by _ l _ => sizeOf l
decreasing_by
  all_goals simp_wf
  · have h := sizeOf_getValidScanList children
    simp only [Prod.mk.sizeOf_spec, FsNode.dir.sizeOf_spec] at *
    omega

/-! ## JSON documents and `parse_dict` (`fusecore/utils.py`)

`parse_dict` walks a decoded JSON dictionary and copies every item whose
key names an existing attribute of the target object onto that object,
recursing when the current attribute value is itself a dataclass and the
incoming value a dict. A Python object is modelled as a list of named
attributes whose values are either nested dataclass instances or plain
(JSON-valued) data. -/

/-- A decoded JSON value (the result of `json.loads`). -/
inductive JVal where
  | str (s : String)
  | num (n : Int)
  | bool (b : Bool)
  | null
  | arr (elems : List JVal)
  | obj (fields : List (String × JVal))
  deriving Repr

/-- A Python attribute value: a nested dataclass instance or plain data. -/
inductive PyVal where
  | dataclass (fields : List (String × PyVal))
  | raw (v : JVal)
  deriving Repr

/-- `getattr`/`hasattr` (`none` means the attribute does not exist). -/
def getAttr (o : List (String × PyVal)) (k : String) : Option PyVal :=
  match o with
  | [] => none
  | (k', v) :: rest => if k' = k then some v else getAttr rest k

/-- `setattr` on an existing attribute. -/
def setAttr (o : List (String × PyVal)) (k : String) (v : PyVal) :
    List (String × PyVal) :=
  match o with
  | [] => []
  | (k', v') :: rest => if k' = k then (k', v) :: rest else (k', v') :: setAttr rest k v

mutual
/-- `parse_dict(obj, data)`: each item of the decoded document is applied
to the object in order. -/
def parse_dict (o : List (String × PyVal)) :
    List (String × JVal) → List (String × PyVal)
  | [] => o
  | (k, v) :: rest => parse_dict (parse_dict_item o k v) rest
termination_by data => sizeOf data
decreasing_by
  all_goals simp_wf
  all_goals try omega

/-- One loop iteration of `parse_dict`: items with unknown keys are
skipped (`hasattr` fails); a dict value hitting a dataclass attribute
recurses; anything else overwrites the attribute with the raw incoming
value. -/
def parse_dict_item (o : List (String × PyVal)) (k : String) (v : JVal) :
    List (String × PyVal) :=
  match getAttr o k, v with
  | none, _ => o
  | some (PyVal.dataclass fields), JVal.obj d =>
    setAttr o k (PyVal.dataclass (parse_dict fields d))
  | some (PyVal.dataclass _), _ => setAttr o k (PyVal.raw v)
  | some (PyVal.raw _), _ => setAttr o k (PyVal.raw v)
termination_by sizeOf v
decreasing_by
  all_goals simp_wf
end

/-- The freshly constructed `ModManifest()` that `_look_for_dir_manifest`
passes to `parse_dict`, as a Python object: every field holds its
dataclass default, in particular `id` holds the empty string. -/
def modManifestObj : List (String × PyVal) :=
  [("id", PyVal.raw (JVal.str "")),
   ("name", PyVal.raw (JVal.str "Ballistica Mod")),
   ("authors", PyVal.raw (JVal.arr [])),
   ("version", PyVal.raw (JVal.str "1.0")),
   ("fusecore", PyVal.raw (JVal.str "1.0")),
   ("assets", PyVal.raw (JVal.obj []))]

/-! ## Auxiliary definitions used by the theorems -/

/-- Comma-join of a list of names (`"A, B, C"`), used to state the
closed form of the author summary. -/
def commaSep : List String → String
  | [] => ""
  | [a] => a
  | a :: b :: rest => a ++ ", " ++ commaSep (b :: rest)

/-- Recognizes the announcement event. -/
def LoadEvent.isAnnounce : LoadEvent → Bool
  | LoadEvent.announce _ _ => true
  | _ => false

/-- Number of activation announcements among the recorded events. -/
def countAnnounce (evs : List LoadEvent) : Nat :=
  evs.countP LoadEvent.isAnnounce

/-- A sample client environment where every path exists, every migration
and dynamic load succeeds, and no module is loaded yet. -/
def sampleEnv : LoadEnv where
  dataDirectory := "data"
  pathExists := fun _ => true
  isFile := fun _ => true
  isServer := false
  classicPlatform := some "linux"
  sysPath := []
  sysModulesHas := fun _ => false
  migrateFails := fun _ => false
  dynFails := fun _ => false

/-- A sample manifest whose code entry resolves to `main.py`. -/
def sampleManifest : ModManifest where
  id := "foo"
  name := "Foo"
  authors := ["A"]
  assets := some [("main", "main.py")]

/-- A freshly discovered directory mod for the sample manifest. -/
def sampleEntry : ModEntry where
  id := "foo"
  path := "mods/foo"
  type := ModType.DIRECTORY
  manifest := some sampleManifest

/-- A directory root holding files last changed at times 5, 9 and 3. -/
def sampleFS : RootFS where
  pathExists := true
  isDir := true
  fileTimes := [5, 9, 3]
  selfTime := 0

/-! ## Theorems -/

theorem authorsJoin_closed_form (l : List String) (a b : String) :
    authorsJoin (a :: b :: l) =
      commaSep ((a :: b :: l).dropLast) ++ " & " ++ (a :: b :: l).getLastD "" := by
  induction l generalizing a b with
  | nil => rfl
  | cons c l ih =>
    have h := ih b c
    simp only [authorsJoin, h, List.dropLast_cons₂, commaSep, List.getLastD_cons,
      String.append_assoc]

/-- **C5** (counterexample). The claim says two authors A and B are
rendered as `"A and B"`; the code renders `"A & B"`, shown here at the
concrete author list `["A", "B"]`. -/
theorem C5_authors_counterexample :
    getAuthorsString ["A", "B"] = "A & B" ∧ "A & B" ≠ "A and B" := by
  exact ⟨rfl, by decide⟩

/-- **C5** (amended). The author summary is: `"no author"` for an empty
list, the sole author's name for a single author, and for two or more
authors the comma-separated list of all but the last followed by
`" & "` and the last author (`"A & B"`, `"A, B & Z"` — an ampersand, not
the word "and"). -/
theorem C5_authors_amended (authors : List String) :
    getAuthorsString authors =
      if authors.length = 0 then "no author"
      else if authors.length = 1 then authors.getD 0 ""
      else commaSep authors.dropLast ++ " & " ++ authors.getLastD "" := by
  match authors with
  | [] => rfl
  | [a] => rfl
  | a :: b :: l =>
    simp only [getAuthorsString, List.length_cons, authorsJoin_closed_form]
    norm_num

/-- **C6**. When a newly discovered entry's id already exists in the
registry, `_add_mod_entry` leaves the registry entirely unchanged (so
every id still maps to the record — path, manifest, status, timestamps —
it mapped to before), and a collision with a different root path is
logged as a rejected conflict; re-discovery with the same path is logged
as a re-append and also changes nothing. -/
theorem C6_registry_collision (reg : List (String × ModEntry)) (entry prev : ModEntry)
    (h : lookupEntry reg entry.id = some prev) :
    (addModEntry reg entry).1 = reg ∧
    (∀ k, lookupEntry (addModEntry reg entry).1 k = lookupEntry reg k) ∧
    (prev.path ≠ entry.path → (addModEntry reg entry).2 = some AddLog.conflictRejected) ∧
    (prev.path = entry.path → (addModEntry reg entry).2 = some AddLog.reAppended) := by
  unfold addModEntry
  rw [h]
  by_cases hp : prev.path = entry.path
  · simp [hp]
  · simp [hp]

/-- **C6** (witness). -/
theorem C6_registry_collision_witness :
    (addModEntry [("foo", sampleEntry)] { sampleEntry with path := "elsewhere/foo" }).1
      = [("foo", sampleEntry)] ∧
    (addModEntry [("foo", sampleEntry)] { sampleEntry with path := "elsewhere/foo" }).2
      = some AddLog.conflictRejected := by
  have h := C6_registry_collision [("foo", sampleEntry)]
    { sampleEntry with path := "elsewhere/foo" } sampleEntry rfl
  exact ⟨h.1, h.2.2.1 (by decide)⟩

/-- **C10**. A `PLUGIN`-kind (stray-script) entry is never actually
loaded: `load` always returns `False`, performs no migration, import,
reload or announcement, and leaves the status untouched (in particular it
never becomes `ACTIVE`). -/
theorem C10_plugin_no_load (e : ModEntry) (env : LoadEnv) (fs : RootFS)
    (h : e.type = ModType.PLUGIN) :
    (load e env fs).outcome = Except.ok false ∧
    (load e env fs).events = [] ∧
    (load e env fs).entry.status = e.status := by
  unfold load loadDispatch
  split
  · exact ⟨rfl, rfl, rfl⟩
  · split
    · exact ⟨rfl, rfl, rfl⟩
    · split
      · exact ⟨rfl, rfl, rfl⟩
      · simp [h]

/-- **C10** (witness): a stray script whose file changed on disk. -/
theorem C10_plugin_no_load_witness :
    (load { id := "stray.py", path := "mods/stray.py", type := ModType.PLUGIN,
            manifest := none }
        sampleEnv { pathExists := true, isDir := false, fileTimes := [], selfTime := 7 }).events
      = [] := by
  exact (C10_plugin_no_load _ sampleEnv _ rfl).2.1

/-! ### Structural lemmas about the load path -/

theorem popNewStatus_entry (e : ModEntry) :
    (popNewStatus e).2 = e ∨ (popNewStatus e).2 = { e with status := ModStatus.ACTIVE } := by
  unfold popNewStatus
  by_cases h : e.status = ModStatus.NEW
  · simp [h]
  · simp [h]

theorem loadAsDirectory_entry_eq (e : ModEntry) (env : LoadEnv) :
    (loadAsDirectory e env).entry = e ∨
    (loadAsDirectory e env).entry = (popNewStatus e).2 := by
  unfold loadAsDirectory
  split
  · exact Or.inl rfl
  · right
    dsimp only
    repeat' split
    all_goals rfl

theorem loadAsDirectory_entry (e : ModEntry) (env : LoadEnv) :
    (loadAsDirectory e env).entry = e ∨
    (loadAsDirectory e env).entry = { e with status := ModStatus.ACTIVE } := by
  rcases loadAsDirectory_entry_eq e env with h | h
  · exact Or.inl h
  · rw [h]
    exact popNewStatus_entry e

theorem loadDispatch_entry (e : ModEntry) (env : LoadEnv) :
    (loadDispatch e env).entry = e ∨
    (loadDispatch e env).entry = { e with status := ModStatus.ACTIVE } := by
  unfold loadDispatch
  cases ht : e.type
  case DIRECTORY =>
    simp only [ht]
    have h := loadAsDirectory_entry e env
    simp only [ht] at h
    split <;> simpa using h
  all_goals simp [ht]

theorem load_skip_not_exists (e : ModEntry) (env : LoadEnv) (fs : RootFS)
    (h : fs.pathExists = false) :
    load e env fs = ⟨e, [], Except.ok false⟩ := by
  unfold load
  rw [if_pos h]

theorem load_skip_immutable_active (e : ModEntry) (env : LoadEnv) (fs : RootFS)
    (h1 : ¬ fs.pathExists = false)
    (h2 : isMutable e = false ∧ e.status = ModStatus.ACTIVE) :
    load e env fs = ⟨e, [], Except.ok false⟩ := by
  unfold load
  rw [if_neg h1, if_pos h2]

theorem load_skip_unchanged (e : ModEntry) (env : LoadEnv) (fs : RootFS)
    (h1 : ¬ fs.pathExists = false)
    (h2 : ¬ (isMutable e = false ∧ e.status = ModStatus.ACTIVE))
    (h3 : getLatestTime fs = e.lastTime) :
    load e env fs = ⟨e, [], Except.ok false⟩ := by
  unfold load
  rw [if_neg h1, if_neg h2, if_pos h3]

theorem load_dispatch_eq (e : ModEntry) (env : LoadEnv) (fs : RootFS)
    (h1 : ¬ fs.pathExists = false)
    (h2 : ¬ (isMutable e = false ∧ e.status = ModStatus.ACTIVE))
    (h3 : ¬ getLatestTime fs = e.lastTime) :
    load e env fs = loadDispatch { e with lastTime := getLatestTime fs } env := by
  unfold load
  rw [if_neg h1, if_neg h2, if_neg h3]

/-- After any `load` call, a second call on the same (unchanged)
filesystem is a no-op: the timestamp recorded by the first call — even a
failing one — short-circuits the second. -/
theorem load_twice (e : ModEntry) (env : LoadEnv) (fs : RootFS) :
    load (load e env fs).entry env fs = ⟨(load e env fs).entry, [], Except.ok false⟩ := by
  by_cases h1 : fs.pathExists = false
  · rw [load_skip_not_exists e env fs h1]
    exact load_skip_not_exists e env fs h1
  · by_cases h2 : isMutable e = false ∧ e.status = ModStatus.ACTIVE
    · rw [load_skip_immutable_active e env fs h1 h2]
      exact load_skip_immutable_active e env fs h1 h2
    · by_cases h3 : getLatestTime fs = e.lastTime
      · rw [load_skip_unchanged e env fs h1 h2 h3]
        exact load_skip_unchanged e env fs h1 h2 h3
      · rw [load_dispatch_eq e env fs h1 h2 h3]
        have hLT : (loadDispatch { e with lastTime := getLatestTime fs } env).entry.lastTime
            = getLatestTime fs := by
          rcases loadDispatch_entry { e with lastTime := getLatestTime fs } env with h | h <;>
            rw [h]
        by_cases h5 : isMutable (loadDispatch { e with lastTime := getLatestTime fs } env).entry
            = false ∧
            (loadDispatch { e with lastTime := getLatestTime fs } env).entry.status
              = ModStatus.ACTIVE
        · exact load_skip_immutable_active _ env fs h1 h5
        · exact load_skip_unchanged _ env fs h1 h5 hLT.symm

/-- **C2**. If the computed change timestamp equals the recorded one,
`load` returns false with no load logic executed (no events); and since
the new timestamp is recorded before dispatch even on failing loads,
running `load` twice against an unchanged filesystem makes the second
call a guaranteed no-op — no activation, reload attempt, event or state
change for any entry, including entries whose first load failed. -/
theorem C2_unchanged_no_second_load (e : ModEntry) (env : LoadEnv) (fs : RootFS) :
    (getLatestTime fs = e.lastTime → load e env fs = ⟨e, [], Except.ok false⟩) ∧
    load (load e env fs).entry env fs = ⟨(load e env fs).entry, [], Except.ok false⟩ := by
  constructor
  · intro h3
    by_cases h1 : fs.pathExists = false
    · exact load_skip_not_exists e env fs h1
    · by_cases h2 : isMutable e = false ∧ e.status = ModStatus.ACTIVE
      · exact load_skip_immutable_active e env fs h1 h2
      · exact load_skip_unchanged e env fs h1 h2 h3
  · exact load_twice e env fs

/-- **C2** (witness): an already-loaded directory mod whose files have
not changed since time 9 is not reloaded. -/
theorem C2_unchanged_no_second_load_witness :
    load { sampleEntry with lastTime := 9 } sampleEnv sampleFS
      = ⟨{ sampleEntry with lastTime := 9 }, [], Except.ok false⟩ := by
  exact (C2_unchanged_no_second_load { sampleEntry with lastTime := 9 } sampleEnv sampleFS).1
    (by decide)

/-! ### The apply pass catches per-entry exceptions (C1) -/

theorem readStep_entries (acc : List ModEntry × List LoadEvent × Bool × ReadExitStatus)
    (x : ModEntry × LoadEnv × RootFS) :
    (readStep acc x).1 = acc.1 ++ [(load x.1 x.2.1 x.2.2).entry] := by
  unfold readStep
  dsimp only
  split <;> rfl

theorem readStep_exit (acc : List ModEntry × List LoadEvent × Bool × ReadExitStatus)
    (x : ModEntry × LoadEnv × RootFS) :
    (readStep acc x).2.2.2 =
      if (load x.1 x.2.1 x.2.2).failed = true then ReadExitStatus.ERROR else acc.2.2.2 := by
  unfold readStep LoadResult.failed
  dsimp only
  split <;> simp [*]

theorem readFold_entries (xs : List (ModEntry × LoadEnv × RootFS))
    (acc : List ModEntry × List LoadEvent × Bool × ReadExitStatus) :
    (xs.foldl readStep acc).1 = acc.1 ++ xs.map (fun x => (load x.1 x.2.1 x.2.2).entry) := by
  induction xs generalizing acc with
  | nil => simp
  | cons x xs ih =>
    rw [List.foldl_cons, ih, readStep_entries]
    simp

theorem readFold_exit (xs : List (ModEntry × LoadEnv × RootFS))
    (acc : List ModEntry × List LoadEvent × Bool × ReadExitStatus) :
    ((xs.foldl readStep acc).2.2.2 = ReadExitStatus.ERROR ↔
      (acc.2.2.2 = ReadExitStatus.ERROR ∨
        ∃ x ∈ xs, (load x.1 x.2.1 x.2.2).failed = true)) := by
  induction xs generalizing acc with
  | nil => simp
  | cons x xs ih =>
    rw [List.foldl_cons, ih]
    rw [readStep_exit]
    by_cases hf : (load x.1 x.2.1 x.2.2).failed = true
    · simp [hf]
    · simp only [hf, if_false, List.mem_cons]
      constructor
      · rintro (h | h)
        · exact Or.inl h
        · exact Or.inr ⟨h.choose, Or.inr h.choose_spec.1, h.choose_spec.2⟩
      · rintro (h | ⟨y, hy | hy, hfy⟩)
        · exact Or.inl h
        · exact absurd (hy ▸ hfy) hf
        · exact Or.inr ⟨y, hy, hfy⟩

/-- **C1** (counterexample). An internal dispatch failure — here the
dynamic import of the mod's main module raising — escapes
`ModEntry.load` as an exception rather than being caught inside `load`
and surfaced as a typed result: the claim fails at this concrete entry
and filesystem state. -/
theorem C1_load_raises_counterexample :
    (load sampleEntry { sampleEnv with dynFails := fun _ => true } sampleFS).outcome
      = Except.error (PyExn.importError "foo.main") := by
  rfl

/-- **C1** (amended). Exceptions from an individual package's load *do*
propagate past `load()` itself; they are caught one level up, per
package, by the apply pass `_read_mod_entries`: the pass never throws,
processes every entry regardless of how many of them raise, and reports
failures through its exit status instead. -/
theorem C1_pass_catches_per_entry (xs : List (ModEntry × LoadEnv × RootFS)) :
    (readModEntries xs).entries = xs.map (fun x => (load x.1 x.2.1 x.2.2).entry) ∧
    ((readModEntries xs).exitStatus = ReadExitStatus.ERROR ↔
      ∃ x ∈ xs, (load x.1 x.2.1 x.2.2).failed = true) := by
  unfold readModEntries
  refine ⟨?_, ?_⟩
  · simpa using readFold_entries xs ([], [], false, ReadExitStatus.CLEAN)
  · simpa using readFold_exit xs ([], [], false, ReadExitStatus.CLEAN)

/-! ### Status promotion and announcements (C3, C4) -/

theorem popNewStatus_spec (e : ModEntry) :
    ((popNewStatus e).1 = true ↔ e.status = ModStatus.NEW) ∧
    (e.status = ModStatus.NEW → (popNewStatus e).2 = { e with status := ModStatus.ACTIVE }) := by
  unfold popNewStatus
  by_cases h : e.status = ModStatus.NEW <;> simp [h]

theorem migrationPhase_none (env : LoadEnv) (e : ModEntry) :
    migrationPhase env e none none none = ([], none) := by
  unfold migrationPhase migrateCall
  by_cases h : env.isServer <;> simp [h]

theorem migrateCall_no_announce (env : LoadEnv) (src : Option String) (dst h : String)
    (exts : List String) :
    ((migrateCall env src dst h exts).1).countP LoadEvent.isAnnounce = 0 := by
  unfold migrateCall
  rcases src with _ | s
  · rfl
  · dsimp only
    split <;> simp [LoadEvent.isAnnounce]

theorem migrationPhase_no_announce (env : LoadEnv) (e : ModEntry)
    (pt pa pm : Option String) :
    ((migrationPhase env e pt pa pm).1).countP LoadEvent.isAnnounce = 0 := by
  unfold migrationPhase
  dsimp only
  repeat' split
  all_goals simp [List.countP_append, migrateCall_no_announce]

theorem loadAsDirectory_no_announce (e : ModEntry) (env : LoadEnv) :
    ((loadAsDirectory e env).events).countP LoadEvent.isAnnounce = 0 := by
  unfold loadAsDirectory
  dsimp only
  repeat' split
  all_goals simp [List.countP_append, migrationPhase_no_announce, LoadEvent.isAnnounce]

theorem loadAsDirectory_cases (e : ModEntry) (env : LoadEnv) :
    ((loadAsDirectory e env).outcome = Except.ok ((popNewStatus e).1) ∧
      (loadAsDirectory e env).entry = (popNewStatus e).2) ∨
    ((loadAsDirectory e env).outcome = Except.ok false ∨
      (loadAsDirectory e env).failed = true) := by
  unfold loadAsDirectory
  dsimp only
  repeat' split
  all_goals simp [LoadResult.failed]

theorem loadDispatch_ok_true (e : ModEntry) (env : LoadEnv)
    (h : (loadDispatch e env).outcome = Except.ok true) :
    e.status = ModStatus.NEW ∧
    (loadDispatch e env).entry.status = ModStatus.ACTIVE ∧
    countAnnounce (loadDispatch e env).events = 1 := by
  unfold loadDispatch at h ⊢
  cases ht : e.type
  case DIRECTORY =>
    simp only [ht] at h ⊢
    rcases hr : (loadAsDirectory e env).outcome with ex | b
    · rw [hr] at h
      dsimp only at h
      exact absurd h (by simp [hr])
    · cases b with
      | false =>
        rw [hr] at h
        dsimp only at h
        exact absurd h (by simp [hr])
      | true =>
        clear h
        dsimp only
        rcases loadAsDirectory_cases e env with ⟨ho, he⟩ | ho | ho
        · have hpop : (popNewStatus e).1 = true := by
            have h2 := ho.symm.trans hr
            simpa using h2
          have hnew := (popNewStatus_spec e).1.mp hpop
          refine ⟨hnew, ?_, ?_⟩
          · rw [he, (popNewStatus_spec e).2 hnew]
          · simp [countAnnounce, List.countP_append,
              loadAsDirectory_no_announce e env, LoadEvent.isAnnounce]
        · have h2 := ho.symm.trans hr
          simp at h2
        · unfold LoadResult.failed at ho
          rw [hr] at ho
          simp at ho
  all_goals (simp only [ht] at h; simp at h)

theorem loadDispatch_not_new_no_announce (e : ModEntry) (env : LoadEnv)
    (h : ¬ e.status = ModStatus.NEW) :
    countAnnounce (loadDispatch e env).events = 0 := by
  unfold loadDispatch
  cases ht : e.type
  case DIRECTORY =>
    simp only [ht]
    rcases hr : (loadAsDirectory e env).outcome with ex | b
    · simpa [countAnnounce] using loadAsDirectory_no_announce e env
    · cases b with
      | false => simpa [countAnnounce] using loadAsDirectory_no_announce e env
      | true =>
        exfalso
        rcases loadAsDirectory_cases e env with ⟨ho, _⟩ | ho | ho
        · have h2 := ho.symm.trans hr
          simp only [Except.ok.injEq] at h2
          exact h ((popNewStatus_spec e).1.mp h2)
        · rw [ho] at hr
          simp at hr
        · unfold LoadResult.failed at ho
          rw [hr] at ho
          simp at ho
  all_goals simp [ht, countAnnounce]

/-- **C4** (counterexample). A *successful reload* of an already-active
directory mod (its main module is present in `sys.modules`, the reload
succeeds) returns `False` and emits *zero* activation notifications —
the claim that every successful load, reloads included, announces once
fails here. -/
theorem C4_reload_counterexample :
    (load { sampleEntry with status := ModStatus.ACTIVE, lastTime := 9 }
        { sampleEnv with sysModulesHas := fun _ => true }
        { sampleFS with fileTimes := [5, 11, 3] }).outcome = Except.ok false ∧
    (load { sampleEntry with status := ModStatus.ACTIVE, lastTime := 9 }
        { sampleEnv with sysModulesHas := fun _ => true }
        { sampleFS with fileTimes := [5, 11, 3] }).events
      = [LoadEvent.reloadMod "foo.main"] ∧
    countAnnounce (load { sampleEntry with status := ModStatus.ACTIVE, lastTime := 9 }
        { sampleEnv with sysModulesHas := fun _ => true }
        { sampleFS with fileTimes := [5, 11, 3] }).events = 0 := by
  exact ⟨rfl, rfl, rfl⟩

/-- **C4** (amended). A load returning `True` is exactly a *first
activation*: it happens only for a `NEW` entry, promotes it to `ACTIVE`,
and emits exactly one activation notification. A load of an
already-`ACTIVE` entry — including every successful reload — emits no
notification at all and returns `False` (the announcement accompanies
only the first activation, not subsequent reloads). -/
theorem C4_announce_only_first_activation (e : ModEntry) (env : LoadEnv) (fs : RootFS) :
    ((load e env fs).outcome = Except.ok true →
      e.status = ModStatus.NEW ∧
      (load e env fs).entry.status = ModStatus.ACTIVE ∧
      countAnnounce (load e env fs).events = 1) ∧
    (e.status = ModStatus.ACTIVE → countAnnounce (load e env fs).events = 0) := by
  by_cases h1 : fs.pathExists = false
  · rw [load_skip_not_exists e env fs h1]
    exact ⟨fun h => by simp at h, fun _ => rfl⟩
  · by_cases h2 : isMutable e = false ∧ e.status = ModStatus.ACTIVE
    · rw [load_skip_immutable_active e env fs h1 h2]
      exact ⟨fun h => by simp at h, fun _ => rfl⟩
    · by_cases h3 : getLatestTime fs = e.lastTime
      · rw [load_skip_unchanged e env fs h1 h2 h3]
        exact ⟨fun h => by simp at h, fun _ => rfl⟩
      · rw [load_dispatch_eq e env fs h1 h2 h3]
        constructor
        · intro h
          exact loadDispatch_ok_true { e with lastTime := getLatestTime fs } env h
        · intro hs
          exact loadDispatch_not_new_no_announce { e with lastTime := getLatestTime fs } env
            (by simp [hs])

/-- **C4** (witness): a fresh directory mod first-activates with exactly
one announcement; an active one reloads with none. -/
theorem C4_announce_only_first_activation_witness :
    (sampleEntry.status = ModStatus.NEW ∧
      (load sampleEntry sampleEnv sampleFS).entry.status = ModStatus.ACTIVE ∧
      countAnnounce (load sampleEntry sampleEnv sampleFS).events = 1) ∧
    countAnnounce (load { sampleEntry with status := ModStatus.ACTIVE, lastTime := 9 }
        { sampleEnv with sysModulesHas := fun _ => true }
        { sampleFS with fileTimes := [5, 11, 3] }).events = 0 := by
  exact ⟨(C4_announce_only_first_activation sampleEntry sampleEnv sampleFS).1 rfl,
    (C4_announce_only_first_activation _ _ _).2 rfl⟩

/-- **C3** (counterexample). A `NEW` directory package whose code entry
is missing (its manifest resolves no `main` asset) fails to load — `load`
returns `False` — yet its status does *not* remain unchanged: it was
already promoted to `ACTIVE` at the start of the directory dispatch. -/
theorem C3_failed_load_promotes_counterexample :
    ({ sampleEntry with
        manifest := some { sampleManifest with assets := some [] } } : ModEntry).status
      = ModStatus.NEW ∧
    (load { sampleEntry with manifest := some { sampleManifest with assets := some [] } }
        sampleEnv sampleFS).outcome = Except.ok false ∧
    (load { sampleEntry with manifest := some { sampleManifest with assets := some [] } }
        sampleEnv sampleFS).entry.status = ModStatus.ACTIVE := by
  exact ⟨rfl, rfl, rfl⟩

theorem load_records_time (e : ModEntry) (env : LoadEnv) (fs : RootFS)
    (h1 : ¬ fs.pathExists = false)
    (h2 : ¬ (isMutable e = false ∧ e.status = ModStatus.ACTIVE))
    (h3 : ¬ getLatestTime fs = e.lastTime) :
    (load e env fs).entry.lastTime = getLatestTime fs := by
  rw [load_dispatch_eq e env fs h1 h2 h3]
  rcases loadDispatch_entry { e with lastTime := getLatestTime fs } env with h | h <;> rw [h]

/-- **C3** (amended). When a `NEW` directory package's load fails because
its code entry is missing, `load` returns `False` and the failure is
retried the next time the change timestamp advances — but the status
does *not* remain unchanged: the entry is promoted to `ACTIVE` at the
start of the dispatch even though the load then fails, and the new
timestamp is recorded. -/
theorem C3_failed_load_promoted_yet_retried (e : ModEntry) (m : ModManifest)
    (env : LoadEnv) (fs : RootFS)
    (ht : e.type = ModType.DIRECTORY) (hs : e.status = ModStatus.NEW)
    (hm : e.manifest = some m) (ha : m.assets = some [])
    (hx : fs.pathExists = true) (hc : ¬ getLatestTime fs = e.lastTime) :
    (load e env fs).outcome = Except.ok false ∧
    (load e env fs).entry.status = ModStatus.ACTIVE ∧
    (load e env fs).entry.lastTime = getLatestTime fs ∧
    (∀ fs' : RootFS, fs'.pathExists = true →
      ¬ getLatestTime fs' = (load e env fs).entry.lastTime →
      (load (load e env fs).entry env fs').entry.lastTime = getLatestTime fs') := by
  have h1 : ¬ fs.pathExists = false := by simp [hx]
  have h2 : ¬ (isMutable e = false ∧ e.status = ModStatus.ACTIVE) := by
    simp [isMutable, ht]
  have hdir : loadAsDirectory { e with lastTime := getLatestTime fs } env =
      ⟨{ e with lastTime := getLatestTime fs, status := ModStatus.ACTIVE }, [],
        Except.ok false⟩ := by
    unfold loadAsDirectory
    simp [hm, ha, popNewStatus, hs, lookupAsset, migrationPhase_none]
  have hload : load e env fs =
      ⟨{ e with lastTime := getLatestTime fs, status := ModStatus.ACTIVE }, [],
        Except.ok false⟩ := by
    rw [load_dispatch_eq e env fs h1 h2 hc]
    unfold loadDispatch
    simp only [ht] at hdir
    simp [ht, hdir]
  refine ⟨by rw [hload], by rw [hload], by rw [hload], ?_⟩
  intro fs' hx' hc'
  rw [hload] at hc' ⊢
  refine load_records_time _ env fs' (by simp [hx']) ?_ hc'
  simp [isMutable, ht]

/-- **C3** (witness). -/
theorem C3_failed_load_promoted_yet_retried_witness :
    (load { sampleEntry with manifest := some { sampleManifest with assets := some [] } }
        sampleEnv sampleFS).entry.lastTime = getLatestTime sampleFS ∧
    (load (load { sampleEntry with
          manifest := some { sampleManifest with assets := some [] } }
        sampleEnv sampleFS).entry sampleEnv { sampleFS with fileTimes := [12] }).entry.lastTime
      = getLatestTime { sampleFS with fileTimes := [12] } := by
  have h := C3_failed_load_promoted_yet_retried
    { sampleEntry with manifest := some { sampleManifest with assets := some [] } }
    { sampleManifest with assets := some [] } sampleEnv sampleFS
    rfl rfl rfl rfl rfl (by decide)
  exact ⟨h.2.2.1, h.2.2.2 { sampleFS with fileTimes := [12] } rfl (by decide)⟩

/-! ### Manifest discovery (C7) -/

theorem charsLe_refl (a : List Char) : charsLe a a = true := by
  induction a with
  | nil => rfl
  | cons x xs ih => simp [charsLe, ih]

theorem pairLe_refl (x : String × FsNode) : pairLe x x :=
  charsLe_refl x.1.data

theorem sortPairs_head_mem {l : List (String × FsNode)} {hd : String × FsNode}
    (h : (sortPairs l).head? = some hd) : hd ∈ l := by
  have hmem : hd ∈ sortPairs l := by
    cases hq : sortPairs l with
    | nil => rw [hq] at h; simp at h
    | cons a t =>
      rw [hq] at h
      simp only [List.head?_cons, Option.some.injEq] at h
      subst h
      exact List.mem_cons_self a t
  exact (List.mem_insertionSort pairLe).mp hmem

theorem sortPairs_head_min {l : List (String × FsNode)} {hd : String × FsNode}
    (h : (sortPairs l).head? = some hd) : ∀ x ∈ l, pairLe hd x := by
  intro x hx
  have hx' : x ∈ sortPairs l := (List.mem_insertionSort pairLe).mpr hx
  have hs : List.Sorted pairLe (sortPairs l) := List.sorted_insertionSort pairLe l
  cases hq : sortPairs l with
  | nil => rw [hq] at h; simp at h
  | cons a t =>
    rw [hq] at h hx' hs
    simp only [List.head?_cons, Option.some.injEq] at h
    subst h
    rcases List.mem_cons.mp hx' with rfl | hxt
    · exact pairLe_refl x
    · exact List.rel_of_sorted_cons hs x hxt

/-- **C7**. Manifest discovery looks only at a directory's immediate
children: (1) with no recognized manifest name among them it reports "no
manifest"; (2) when every manifest-named child is unreadable as a
manifest (unparsable contents, or a directory of that name) it likewise
reports "no manifest" instead of failing; (3) when several candidates
exist it deterministically picks the lexicographically first manifest
filename; (4) the result is unchanged under arbitrary replacement of the
contents of subdirectories — discovery never descends below the
immediate children. -/
theorem C7_manifest_discovery (children : List (String × FsNode)) :
    ((∀ c ∈ children, c.1 ∉ VALID_MANIFESTS) → lookForDirManifest children = none) ∧
    ((∀ c ∈ children, c.1 ∈ VALID_MANIFESTS → c.2 = FsNode.file none) →
      lookForDirManifest children = none) ∧
    (∀ nm (p : Option ModManifest), (nm, FsNode.file p) ∈ children →
      nm ∈ VALID_MANIFESTS →
      (∀ c ∈ children, c.1 ∈ VALID_MANIFESTS → strLe nm c.1) →
      (∀ c ∈ children, c.1 ∈ VALID_MANIFESTS → c.1 = nm → c.2 = FsNode.file p) →
      lookForDirManifest children = p) ∧
    (∀ g : String → List (String × FsNode),
      lookForDirManifest (children.map (fun c =>
        (c.1, match c.2 with
              | FsNode.dir _ => FsNode.dir (g c.1)
              | f => f))) = lookForDirManifest children) := by
  refine ⟨?_, ?_, ?_, ?_⟩
  · intro hno
    unfold lookForDirManifest
    have hf : children.filter (fun c => decide (c.1 ∈ VALID_MANIFESTS)) = [] := by
      rw [List.filter_eq_nil_iff]
      intro c hc
      simp [hno c hc]
    simp [hf]
  · intro hbad
    unfold lookForDirManifest
    dsimp only
    by_cases hlen :
        (children.filter (fun c => decide (c.1 ∈ VALID_MANIFESTS))).length < 1
    · simp [hlen]
    · rw [if_neg hlen]
      cases hq : (sortPairs
          (children.filter (fun c => decide (c.1 ∈ VALID_MANIFESTS)))).head? with
      | none => rfl
      | some hd =>
        have hmem := sortPairs_head_mem hq
        have hc := List.mem_filter.mp hmem
        have hv : hd.1 ∈ VALID_MANIFESTS := by simpa using hc.2
        have h2 := hbad hd hc.1 hv
        rcases hd with ⟨n, node⟩
        simp [show node = FsNode.file none from h2]
  · intro nm p hmem hval hmin huniq
    unfold lookForDirManifest
    dsimp only
    have hfmem : (nm, FsNode.file p) ∈
        children.filter (fun c => decide (c.1 ∈ VALID_MANIFESTS)) :=
      List.mem_filter.mpr ⟨hmem, by simpa using hval⟩
    have hlen : ¬ (children.filter (fun c => decide (c.1 ∈ VALID_MANIFESTS))).length < 1 := by
      have := List.length_pos_of_mem hfmem
      omega
    rw [if_neg hlen]
    cases hq : (sortPairs
        (children.filter (fun c => decide (c.1 ∈ VALID_MANIFESTS)))).head? with
    | none =>
      exfalso
      have hempty := List.head?_eq_none_iff.mp hq
      have hlen2 := (List.perm_insertionSort pairLe
        (children.filter (fun c => decide (c.1 ∈ VALID_MANIFESTS)))).length_eq
      unfold sortPairs at hempty
      rw [hempty] at hlen2
      simp only [List.length_nil] at hlen2
      have hpos := List.length_pos_of_mem hfmem
      omega
    | some hd =>
      have hdmem := sortPairs_head_mem hq
      have hdc := List.mem_filter.mp hdmem
      have hdval : hd.1 ∈ VALID_MANIFESTS := by simpa using hdc.2
      have hle1 : pairLe hd (nm, FsNode.file p) := sortPairs_head_min hq _ hfmem
      have hle2 : strLe nm hd.1 := hmin hd hdc.1 hdval
      have hname : hd.1 = nm := by
        have := charsLe_antisymm hd.1.data nm.data hle1 hle2
        exact String.ext this
      have hnode := huniq hd hdc.1 hdval hname
      rcases hd with ⟨n, node⟩
      simp [show node = FsNode.file p from hnode]
  · intro g
    unfold lookForDirManifest
    dsimp only
    have hfilter : (children.map (fun c =>
        ((c.1 : String), match c.2 with
              | FsNode.dir _ => FsNode.dir (g c.1)
              | f => f))).filter (fun c => decide (c.1 ∈ VALID_MANIFESTS)) =
        (children.filter (fun c => decide (c.1 ∈ VALID_MANIFESTS))).map (fun c =>
        (c.1, match c.2 with
              | FsNode.dir _ => FsNode.dir (g c.1)
              | f => f)) := by
      rw [List.filter_map]
      congr 1
    rw [hfilter]
    have hsort : sortPairs ((children.filter
        (fun c => decide (c.1 ∈ VALID_MANIFESTS))).map (fun c =>
        ((c.1 : String), match c.2 with
              | FsNode.dir _ => FsNode.dir (g c.1)
              | f => f))) =
        (sortPairs (children.filter (fun c => decide (c.1 ∈ VALID_MANIFESTS)))).map (fun c =>
        (c.1, match c.2 with
              | FsNode.dir _ => FsNode.dir (g c.1)
              | f => f)) := by
      unfold sortPairs
      exact (List.map_insertionSort pairLe pairLe
        (fun c => ((c.1 : String), match c.2 with
              | FsNode.dir _ => FsNode.dir (g c.1)
              | f => f))
        (children.filter (fun c => decide (c.1 ∈ VALID_MANIFESTS)))
        (fun a _ b _ => Iff.rfl)).symm
    rw [hsort, List.length_map, List.head?_map]
    by_cases hlen :
        (children.filter (fun c => decide (c.1 ∈ VALID_MANIFESTS))).length < 1
    · simp [hlen]
    · rw [if_neg hlen, if_neg hlen]
      cases hq : (sortPairs
          (children.filter (fun c => decide (c.1 ∈ VALID_MANIFESTS)))).head? with
      | none => rfl
      | some hd =>
        rcases hd with ⟨n, node⟩
        cases node <;> rfl

/-- **C7** (witness): a directory whose children are a parsable
`mod.json` and a stray script resolves the manifest; one holding only an
unparsable `mod.json` resolves none. -/
theorem C7_manifest_discovery_witness :
    lookForDirManifest [("a.py", FsNode.file none),
      ("mod.json", FsNode.file (some sampleManifest))] = some sampleManifest ∧
    lookForDirManifest [("mod.json", FsNode.file none)] = none := by
  constructor
  · refine (C7_manifest_discovery _).2.2.1 "mod.json" (some sampleManifest) ?_ ?_ ?_ ?_
    · simp
    · simp [VALID_MANIFESTS]
    · intro c hc hv
      rcases List.mem_cons.mp hc with rfl | hc2
      · simp [VALID_MANIFESTS] at hv
      · rcases List.mem_cons.mp hc2 with rfl | hc3
        · exact charsLe_refl _
        · simp at hc3
    · intro c hc _ hn
      rcases List.mem_cons.mp hc with rfl | hc2
      · simp at hn
      · rcases List.mem_cons.mp hc2 with rfl | hc3
        · rfl
        · simp at hc3
  · refine (C7_manifest_discovery _).2.1 ?_
    intro c hc _
    rcases List.mem_cons.mp hc with rfl | hc2
    · rfl
    · simp at hc2

/-! ### Scan-loop step equations and invariants (C8) -/

theorem scanLoop_nil (last : List String) (pfx : String) (st : ScanState) :
    scanLoop last pfx [] st = st := by
  rw [scanLoop.eq_def]

theorem scanLoop_seen (last : List String) (pfx name : String) (node : FsNode)
    (rest : List (String × FsNode)) (st : ScanState)
    (h : get_abspath name pfx ∈ last) :
    scanLoop last pfx ((name, node) :: rest) st =
      scanLoop last pfx rest
        { st with scanPaths := st.scanPaths ++ [get_abspath name pfx] } := by
  rw [scanLoop.eq_def]
  simp [h]

theorem scanLoop_dir_manifest (last : List String) (pfx name : String)
    (ch : List (String × FsNode)) (rest : List (String × FsNode)) (st : ScanState)
    (m : ModManifest)
    (hseen : get_abspath name pfx ∉ last) (hm : lookForDirManifest ch = some m) :
    scanLoop last pfx ((name, FsNode.dir ch) :: rest) st =
      scanLoop last pfx rest
        { scanPaths := st.scanPaths ++ [get_abspath name pfx],
          modEntries := (addModEntry st.modEntries
            { id := m.id, path := get_abspath name pfx, type := ModType.DIRECTORY,
              manifest := some m }).1 } := by
  rw [scanLoop.eq_def]
  simp [hseen, hm]

theorem scanLoop_dir_recurse (last : List String) (pfx name : String)
    (ch : List (String × FsNode)) (rest : List (String × FsNode)) (st : ScanState)
    (hseen : get_abspath name pfx ∉ last) (hm : lookForDirManifest ch = none) :
    scanLoop last pfx ((name, FsNode.dir ch) :: rest) st =
      scanLoop last pfx rest
        { scanPaths := (scanLoop last (get_abspath name pfx) (getValidScanList ch)
            { st with scanPaths := st.scanPaths ++ [get_abspath name pfx] }).scanPaths.erase
              (get_abspath name pfx),
          modEntries := (scanLoop last (get_abspath name pfx) (getValidScanList ch)
            { st with scanPaths := st.scanPaths ++ [get_abspath name pfx] }).modEntries } := by
  rw [scanLoop.eq_def]
  simp [hseen, hm]

theorem scanLoop_file_py (last : List String) (pfx name : String)
    (parsed : Option ModManifest) (rest : List (String × FsNode)) (st : ScanState)
    (hseen : get_abspath name pfx ∉ last) (hpy : nameSuffix name = ".py") :
    scanLoop last pfx ((name, FsNode.file parsed) :: rest) st =
      scanLoop last pfx rest
        { scanPaths := st.scanPaths ++ [get_abspath name pfx],
          modEntries := (addModEntry st.modEntries
            { id := name, path := get_abspath name pfx, type := ModType.PLUGIN,
              manifest := none }).1 } := by
  rw [scanLoop.eq_def]
  simp [hseen, hpy]

theorem scanLoop_file_other (last : List String) (pfx name : String)
    (parsed : Option ModManifest) (rest : List (String × FsNode)) (st : ScanState)
    (hseen : get_abspath name pfx ∉ last) (hpy : ¬ nameSuffix name = ".py") :
    scanLoop last pfx ((name, FsNode.file parsed) :: rest) st =
      scanLoop last pfx rest
        { st with scanPaths := st.scanPaths ++ [get_abspath name pfx] } := by
  rw [scanLoop.eq_def]
  simp [hseen, hpy]

theorem addModEntry_mem {reg : List (String × ModEntry)} {e : ModEntry}
    {x : String × ModEntry} (h : x ∈ (addModEntry reg e).1) :
    x ∈ reg ∨ x = (e.id, e) := by
  unfold addModEntry at h
  rcases hl : lookupEntry reg e.id with _ | prev
  · rw [hl] at h
    simp only [List.mem_append, List.mem_singleton] at h
    exact h
  · rw [hl] at h
    by_cases hp : prev.path ≠ e.path
    · simp only [if_pos hp] at h
      exact Or.inl h
    · simp only [if_neg hp] at h
      exact Or.inl h

/-- Everything the candidate loop adds — scan paths and registered mod
entries alike — lives strictly below the directory being scanned. -/
theorem scanLoop_extends (last : List String) (pfx : String)
    (l : List (String × FsNode)) (st : ScanState) :
    (∀ q ∈ (scanLoop last pfx l st).scanPaths,
      q ∈ st.scanPaths ∨ ∃ s, q = pfx ++ "/" ++ s) ∧
    (∀ x ∈ (scanLoop last pfx l st).modEntries,
      x ∈ st.modEntries ∨ ∃ s, x.2.path = pfx ++ "/" ++ s) := by
  induction pfx, l, st using scanLoop.induct last with
  | case1 pfx st =>
    rw [scanLoop_nil]
    exact ⟨fun q hq => Or.inl hq, fun x hx => Or.inl hx⟩
  | case2 pfx name node rest st full st1 hseen ih =>
    rw [scanLoop_seen last pfx name node rest st hseen]
    refine ⟨fun q hq => ?_, fun x hx => ?_⟩
    · rcases ih.1 q hq with hq1 | hq1
      · rcases List.mem_append.mp hq1 with hq2 | hq2
        · exact Or.inl hq2
        · exact Or.inr ⟨name, List.mem_singleton.mp hq2⟩
      · exact Or.inr hq1
    · exact ih.2 x hx
  | case3 pfx name rest st full st1 hseen ch m hm ih =>
    rw [scanLoop_dir_manifest last pfx name ch rest st m hseen hm]
    refine ⟨fun q hq => ?_, fun x hx => ?_⟩
    · rcases ih.1 q hq with hq1 | hq1
      · rcases List.mem_append.mp hq1 with hq2 | hq2
        · exact Or.inl hq2
        · exact Or.inr ⟨name, List.mem_singleton.mp hq2⟩
      · exact Or.inr hq1
    · rcases ih.2 x hx with hx1 | hx1
      · rcases addModEntry_mem hx1 with hx2 | hx2
        · exact Or.inl hx2
        · refine Or.inr ⟨name, ?_⟩
          rw [hx2]
          rfl
      · exact Or.inr hx1
  | case4 pfx name rest st full st1 hseen ch hm st2 st3 ih1 ih1' ih2 =>
    rw [scanLoop_dir_recurse last pfx name ch rest st hseen hm]
    refine ⟨fun q hq => ?_, fun x hx => ?_⟩
    · rcases ih2.1 q hq with hq1 | hq1
      · have hq2 := List.mem_of_mem_erase hq1
        rcases ih1'.1 q hq2 with hq3 | hq3
        · rcases List.mem_append.mp hq3 with hq4 | hq4
          · exact Or.inl hq4
          · exact Or.inr ⟨name, List.mem_singleton.mp hq4⟩
        · rcases hq3 with ⟨s, hs⟩
          refine Or.inr ⟨name ++ "/" ++ s, ?_⟩
          rw [hs]
          unfold get_abspath
          simp [String.append_assoc]
      · exact Or.inr hq1
    · rcases ih2.2 x hx with hx1 | hx1
      · rcases ih1'.2 x hx1 with hx2 | hx2
        · exact Or.inl hx2
        · rcases hx2 with ⟨s, hs⟩
          refine Or.inr ⟨name ++ "/" ++ s, ?_⟩
          rw [hs]
          unfold get_abspath
          simp [String.append_assoc]
      · exact Or.inr hx1
  | case5 pfx name rest st full st1 hseen parsed hpy ih =>
    rw [scanLoop_file_py last pfx name parsed rest st hseen hpy]
    refine ⟨fun q hq => ?_, fun x hx => ?_⟩
    · rcases ih.1 q hq with hq1 | hq1
      · rcases List.mem_append.mp hq1 with hq2 | hq2
        · exact Or.inl hq2
        · exact Or.inr ⟨name, List.mem_singleton.mp hq2⟩
      · exact Or.inr hq1
    · rcases ih.2 x hx with hx1 | hx1
      · rcases addModEntry_mem hx1 with hx2 | hx2
        · exact Or.inl hx2
        · refine Or.inr ⟨name, ?_⟩
          rw [hx2]
          rfl
      · exact Or.inr hx1
  | case6 pfx name rest st full st1 hseen parsed hpy ih =>
    rw [scanLoop_file_other last pfx name parsed rest st hseen hpy]
    refine ⟨fun q hq => ?_, fun x hx => ?_⟩
    · rcases ih.1 q hq with hq1 | hq1
      · rcases List.mem_append.mp hq1 with hq2 | hq2
        · exact Or.inl hq2
        · exact Or.inr ⟨name, List.mem_singleton.mp hq2⟩
      · exact Or.inr hq1
    · exact ih.2 x hx

/-- The candidate loop never changes how often a path *outside* the
scanned directory occurs in the scan-path list. -/
theorem scanLoop_count (last : List String) (pfx : String)
    (l : List (String × FsNode)) (st : ScanState) :
    ∀ q : String, (∀ s, q ≠ pfx ++ "/" ++ s) →
      (scanLoop last pfx l st).scanPaths.count q = st.scanPaths.count q := by
  induction pfx, l, st using scanLoop.induct last with
  | case1 pfx st =>
    intro q _
    rw [scanLoop_nil]
  | case2 pfx name node rest st full st1 hseen ih =>
    intro q hq
    rw [scanLoop_seen last pfx name node rest st hseen]
    refine (ih q hq).trans ?_
    show (st.scanPaths ++ [get_abspath name pfx]).count q = st.scanPaths.count q
    rw [List.count_append]
    have hz : List.count q [get_abspath name pfx] = 0 := by
      rw [List.count_eq_zero]
      intro hmem
      rw [List.mem_singleton] at hmem
      exact hq name hmem
    rw [hz]
    omega
  | case3 pfx name rest st full st1 hseen ch m hm ih =>
    intro q hq
    rw [scanLoop_dir_manifest last pfx name ch rest st m hseen hm]
    refine (ih q hq).trans ?_
    show (st.scanPaths ++ [get_abspath name pfx]).count q = st.scanPaths.count q
    rw [List.count_append]
    have hz : List.count q [get_abspath name pfx] = 0 := by
      rw [List.count_eq_zero]
      intro hmem
      rw [List.mem_singleton] at hmem
      exact hq name hmem
    rw [hz]
    omega
  | case4 pfx name rest st full st1 hseen ch hm st2 st3 ih1 ih1' ih2 =>
    intro q hq
    rw [scanLoop_dir_recurse last pfx name ch rest st hseen hm]
    have hq' : ∀ s, q ≠ get_abspath name pfx ++ "/" ++ s := by
      intro s hcontra
      refine hq (name ++ "/" ++ s) ?_
      rw [hcontra]
      show (pfx ++ "/" ++ name) ++ "/" ++ s = pfx ++ "/" ++ (name ++ "/" ++ s)
      simp [String.append_assoc]
    have hqfull : q ≠ get_abspath name pfx := hq name
    refine (ih2 q hq).trans ?_
    show ((scanLoop last (get_abspath name pfx) (getValidScanList ch)
        { st with scanPaths := st.scanPaths ++ [get_abspath name pfx] }).scanPaths.erase
          (get_abspath name pfx)).count q = st.scanPaths.count q
    rw [List.count_erase_of_ne hqfull]
    refine (ih1' q hq').trans ?_
    show (st.scanPaths ++ [get_abspath name pfx]).count q = st.scanPaths.count q
    rw [List.count_append]
    have hz : List.count q [get_abspath name pfx] = 0 := by
      rw [List.count_eq_zero]
      intro hmem
      rw [List.mem_singleton] at hmem
      exact hq name hmem
    rw [hz]
    omega
  | case5 pfx name rest st full st1 hseen parsed hpy ih =>
    intro q hq
    rw [scanLoop_file_py last pfx name parsed rest st hseen hpy]
    refine (ih q hq).trans ?_
    show (st.scanPaths ++ [get_abspath name pfx]).count q = st.scanPaths.count q
    rw [List.count_append]
    have hz : List.count q [get_abspath name pfx] = 0 := by
      rw [List.count_eq_zero]
      intro hmem
      rw [List.mem_singleton] at hmem
      exact hq name hmem
    rw [hz]
    omega
  | case6 pfx name rest st full st1 hseen parsed hpy ih =>
    intro q hq
    rw [scanLoop_file_other last pfx name parsed rest st hseen hpy]
    refine (ih q hq).trans ?_
    show (st.scanPaths ++ [get_abspath name pfx]).count q = st.scanPaths.count q
    rw [List.count_append]
    have hz : List.count q [get_abspath name pfx] = 0 := by
      rw [List.count_eq_zero]
      intro hmem
      rw [List.mem_singleton] at hmem
      exact hq name hmem
    rw [hz]
    omega

theorem ne_self_append (a s : String) : a ≠ a ++ "/" ++ s := by
  intro h
  have hlen := congrArg String.length h
  rw [String.length_append, String.length_append] at hlen
  have hone : ("/" : String).length = 1 := rfl
  rw [hone] at hlen
  omega

/-- **C8**. During a scan, a candidate directory that was not previously
seen is handled as follows. With a manifest: it is registered as a
`DIRECTORY`-kind record keyed by the manifest id, the only scan-path
added is the directory itself, and nothing below it is visited (the
result does not depend on the subtree). Without a manifest: the scanner
recurses into its (filtered, sorted) children, the directory itself is
erased again from the scan-path list — so it is not remembered as seen
and is revisited on the next pass — and no record whose root path is the
directory itself is ever registered. -/
theorem C8_scan_directory_handling (last : List String) (pfx name : String)
    (ch : List (String × FsNode)) (st : ScanState)
    (hseen : get_abspath name pfx ∉ last) :
    (∀ m, lookForDirManifest ch = some m →
      (scanLoop last pfx [(name, FsNode.dir ch)] st).scanPaths
          = st.scanPaths ++ [get_abspath name pfx] ∧
      (scanLoop last pfx [(name, FsNode.dir ch)] st).modEntries
          = (addModEntry st.modEntries
              { id := m.id, path := get_abspath name pfx, type := ModType.DIRECTORY,
                manifest := some m }).1) ∧
    (lookForDirManifest ch = none →
      (scanLoop last pfx [(name, FsNode.dir ch)] st).modEntries
          = (scanLoop last (get_abspath name pfx) (getValidScanList ch)
              { st with scanPaths := st.scanPaths ++ [get_abspath name pfx] }).modEntries ∧
      (scanLoop last pfx [(name, FsNode.dir ch)] st).scanPaths
          = (scanLoop last (get_abspath name pfx) (getValidScanList ch)
              { st with scanPaths := st.scanPaths ++ [get_abspath name pfx] }).scanPaths.erase
            (get_abspath name pfx) ∧
      (get_abspath name pfx ∉ st.scanPaths →
        get_abspath name pfx ∉ (scanLoop last pfx [(name, FsNode.dir ch)] st).scanPaths) ∧
      (∀ x ∈ (scanLoop last pfx [(name, FsNode.dir ch)] st).modEntries,
        x ∈ st.modEntries ∨ x.2.path ≠ get_abspath name pfx)) := by
  constructor
  · intro m hm
    rw [scanLoop_dir_manifest last pfx name ch [] st m hseen hm, scanLoop_nil]
    exact ⟨rfl, rfl⟩
  · intro hm
    have hstep := scanLoop_dir_recurse last pfx name ch [] st hseen hm
    rw [scanLoop_nil] at hstep
    refine ⟨by rw [hstep], by rw [hstep], ?_, ?_⟩
    · intro hnotin
      rw [hstep]
      dsimp only
      intro hmem
      have hcount : (scanLoop last (get_abspath name pfx) (getValidScanList ch)
          { st with scanPaths := st.scanPaths ++ [get_abspath name pfx] }).scanPaths.count
            (get_abspath name pfx) = 1 := by
        have h1 := scanLoop_count last (get_abspath name pfx) (getValidScanList ch)
          { st with scanPaths := st.scanPaths ++ [get_abspath name pfx] }
          (get_abspath name pfx) (fun s => ne_self_append _ s)
        rw [h1]
        show (st.scanPaths ++ [get_abspath name pfx]).count (get_abspath name pfx) = 1
        rw [List.count_append]
        rw [List.count_eq_zero.mpr hnotin]
        simp
      have hz : ((scanLoop last (get_abspath name pfx) (getValidScanList ch)
          { st with scanPaths := st.scanPaths ++ [get_abspath name pfx] }).scanPaths.erase
            (get_abspath name pfx)).count (get_abspath name pfx) = 0 := by
        rw [List.count_erase_self, hcount]
      exact absurd (List.count_eq_zero.mp hz) (by simpa using hmem)
    · intro x hx
      rw [hstep] at hx
      dsimp only at hx
      have hext := (scanLoop_extends last (get_abspath name pfx) (getValidScanList ch)
        { st with scanPaths := st.scanPaths ++ [get_abspath name pfx] }).2 x hx
      rcases hext with hx1 | ⟨s, hs⟩
      · exact Or.inl hx1
      · right
        rw [hs]
        exact (ne_self_append _ s).symm

/-- **C8** (witness): a directory holding a `mod.json` is registered as a
directory mod without descending; an empty manifest-less directory is
not remembered in the scan-path list. -/
theorem C8_scan_directory_handling_witness :
    (scanLoop [] "mods" [("foo", FsNode.dir [("mod.json",
        FsNode.file (some sampleManifest))])] ⟨[], []⟩).modEntries
      = (addModEntry []
          { id := sampleManifest.id, path := "mods/foo",
            type := ModType.DIRECTORY, manifest := some sampleManifest }).1 ∧
    "mods/bare" ∉ (scanLoop [] "mods" [("bare", FsNode.dir [])] ⟨[], []⟩).scanPaths := by
  constructor
  · exact ((C8_scan_directory_handling [] "mods" "foo"
      [("mod.json", FsNode.file (some sampleManifest))] ⟨[], []⟩
      (by simp)).1 sampleManifest rfl).2
  · exact ((C8_scan_directory_handling [] "mods" "bare" [] ⟨[], []⟩
      (by simp)).2 rfl).2.2.1 (by simp)

/-! ### Manifest parsing and record ids (C9) -/

theorem getAttr_setAttr_ne (o : List (String × PyVal)) (k k' : String) (v : PyVal)
    (h : ¬ k' = k) : getAttr (setAttr o k' v) k = getAttr o k := by
  induction o with
  | nil => rfl
  | cons kv rest ih =>
    rcases kv with ⟨k0, v0⟩
    unfold setAttr
    by_cases h0 : k0 = k'
    · rw [if_pos h0]
      unfold getAttr
      have hk : ¬ k0 = k := by rw [h0]; exact h
      rw [if_neg hk, if_neg hk]
    · rw [if_neg h0]
      unfold getAttr
      by_cases hk : k0 = k
      · rw [if_pos hk, if_pos hk]
      · rw [if_neg hk, if_neg hk]
        exact ih

/-- `parse_dict` leaves attributes alone whose key the document does not
mention. -/
theorem parse_dict_preserves (data : List (String × JVal))
    (o : List (String × PyVal)) (k : String) (hk : ∀ v, (k, v) ∉ data) :
    getAttr (parse_dict o data) k = getAttr o k := by
  induction data generalizing o with
  | nil => rw [parse_dict]
  | cons kv rest ih =>
    rcases kv with ⟨k1, v1⟩
    rw [parse_dict]
    have hk1 : ¬ k1 = k := by
      intro h
      exact hk v1 (h ▸ List.mem_cons_self _ _)
    have hrest : ∀ v, (k, v) ∉ rest := fun v hv => hk v (List.mem_cons_of_mem _ hv)
    refine (ih _ hrest).trans ?_
    unfold parse_dict_item
    split
    · rfl
    · exact getAttr_setAttr_ne o k k1 _ hk1
    · exact getAttr_setAttr_ne o k k1 _ hk1
    · exact getAttr_setAttr_ne o k k1 _ hk1

theorem lookupEntry_append_self (reg : List (String × ModEntry)) (e : ModEntry)
    (h : lookupEntry reg e.id = none) :
    lookupEntry (reg ++ [(e.id, e)]) e.id = some e := by
  induction reg with
  | nil => simp [lookupEntry]
  | cons kv rest ih =>
    unfold lookupEntry at h ⊢
    rcases kv with ⟨k0, e0⟩
    simp only [List.cons_append, List.find?_cons] at h ⊢
    by_cases h0 : k0 == e.id
    · rw [h0] at h
      simp at h
    · rw [Bool.not_eq_true] at h0
      rw [h0] at h ⊢
      exact ih h

/-- **C9** (counterexample). A syntactically valid manifest document that
omits the `id` field parses successfully, leaving `id` at its dataclass
default — the *empty string* — and the scanner then registers the
Directory-kind record keyed by that empty id: the non-emptiness claim
fails at the empty JSON document `{}`. -/
theorem C9_empty_id_counterexample :
    getAttr (parse_dict modManifestObj []) "id" = some (PyVal.raw (JVal.str "")) ∧
    (scanLoop [] "mods" [("foo", FsNode.dir [("mod.json",
        FsNode.file (some ({} : ModManifest)))])] ⟨[], []⟩).modEntries
      = [("", { id := "", path := "mods/foo", type := ModType.DIRECTORY,
                manifest := some ({} : ModManifest) })] ∧
    ({} : ModManifest).id = "" := by
  refine ⟨?_, ?_, rfl⟩
  · rw [parse_dict]
    rfl
  · rw [scanLoop_dir_manifest [] "mods" "foo"
      [("mod.json", FsNode.file (some ({} : ModManifest)))] [] ⟨[], []⟩
      ({} : ModManifest) (by simp) rfl, scanLoop_nil]
    rfl

/-- **C9** (amended). A Directory-kind record created from a resolved
manifest carries exactly the manifest's `id` value — but that value is
*not* guaranteed non-empty: when the parsed document does not mention
`id`, `parse_dict` leaves the `ModManifest` default in place, which is
the empty string, and the record is registered under the empty id. -/
theorem C9_record_id_from_manifest (data : List (String × JVal))
    (hdata : ∀ v, ("id", v) ∉ data) :
    getAttr (parse_dict modManifestObj data) "id" = some (PyVal.raw (JVal.str "")) ∧
    (∀ (last : List String) (pfx name : String) (ch : List (String × FsNode))
        (st : ScanState) (m : ModManifest),
      lookForDirManifest ch = some m →
      get_abspath name pfx ∉ last →
      lookupEntry st.modEntries m.id = none →
      lookupEntry (scanLoop last pfx [(name, FsNode.dir ch)] st).modEntries m.id
        = some { id := m.id, path := get_abspath name pfx, type := ModType.DIRECTORY,
                 manifest := some m }) := by
  constructor
  · exact (parse_dict_preserves data modManifestObj "id" hdata).trans rfl
  · intro last pfx name ch st m hm hseen hfresh
    rw [scanLoop_dir_manifest last pfx name ch [] st m hseen hm, scanLoop_nil]
    dsimp only
    unfold addModEntry
    rw [hfresh]
    exact lookupEntry_append_self st.modEntries _ hfresh

/-- **C9** (witness): a manifest document carrying only a `name` field
leaves the id empty; a fresh registry registers the sample manifest's
record under its id. -/
theorem C9_record_id_from_manifest_witness :
    getAttr (parse_dict modManifestObj [("name", JVal.str "X")]) "id"
      = some (PyVal.raw (JVal.str "")) ∧
    lookupEntry (scanLoop [] "mods" [("foo", FsNode.dir [("mod.json",
        FsNode.file (some sampleManifest))])] ⟨[], []⟩).modEntries "foo"
      = some { id := "foo", path := "mods/foo", type := ModType.DIRECTORY,
               manifest := some sampleManifest } := by
  have h := C9_record_id_from_manifest [("name", JVal.str "X")]
    (by intro v hv; simp at hv)
  refine ⟨h.1, ?_⟩
  exact h.2 [] "mods" "foo" _ ⟨[], []⟩ sampleManifest rfl (by simp) rfl

end FuseCore
